import Mathlib

/-!
Verification of the climate-hack steam-price calculator.

The development shallowly embeds the pure financial core of the
repository in Lean: Python floats are modelled as rationals, Python
round-to-2-decimals as round-half-to-even at two decimal digits, and
fallible code (division by a zero boiler efficiency) as `Except`.
-/

namespace ClimateHack

/-- Round-half-to-even of a rational to the nearest integer, the tie rule
of Python rounding. -/
def roundHalfEven (q : ℚ) : ℤ :=
  if q - ⌊q⌋ < 1/2 then ⌊q⌋
  else if 1/2 < q - ⌊q⌋ then ⌊q⌋ + 1
  else if Even ⌊q⌋ then ⌊q⌋ else ⌊q⌋ + 1

/-- Model of Python rounding to two decimal places: round to the nearest
hundredth, ties to even. -/
def round2 (x : ℚ) : ℚ :=
  (roundHalfEven (x * 100) : ℚ) / 100

/-- Inputs of `calculate_steam_price` in `utils.py` (the keyword
arguments, in source order). -/
structure PriceInputs where
  ng_price_per_mmbtu : ℚ
  boiler_efficiency : ℚ
  lcfs_price_per_ton : ℚ
  bau_emissions_factor : ℚ
  project_emissions_factor : ℚ
  o_and_m_cost : ℚ
deriving DecidableEq, Repr

/-- Error kinds of the pricing core.  A zero boiler efficiency makes the
Python division `1 / boiler_efficiency` raise `ZeroDivisionError`. -/
inductive PriceError where
  | divisionByZero
deriving DecidableEq, Repr

/-- The component dictionary returned by `calculate_steam_price` with
`return_components=True` (`utils.py` lines 47-54). -/
structure PriceComponents where
  net_steam_price : ℚ
  fuel_cost : ℚ
  lcfs_credit : ℚ
  emissions_avoided : ℚ
  required_ng_per_mmbtu_steam : ℚ
deriving DecidableEq, Repr

/-- `calculate_steam_price` of `utils.py` in the `return_components=True`
mode.  The division by `boiler_efficiency` fails when it is zero;
otherwise the four reference formulas are computed and the monetary
fields are rounded to two decimals before being returned. -/
def calculate_steam_price_components (inp : PriceInputs) :
    Except PriceError PriceComponents :=
  if inp.boiler_efficiency = 0 then .error .divisionByZero
  else
    let required_ng_per_mmbtu_steam := 1 / inp.boiler_efficiency
    let fuel_cost := inp.ng_price_per_mmbtu * required_ng_per_mmbtu_steam
    let emissions_avoided :=
      inp.bau_emissions_factor - inp.project_emissions_factor
    let lcfs_credit := emissions_avoided * inp.lcfs_price_per_ton
    let net_steam_price := fuel_cost - lcfs_credit + inp.o_and_m_cost
    .ok
      { net_steam_price := round2 net_steam_price
        fuel_cost := round2 fuel_cost
        lcfs_credit := round2 lcfs_credit
        emissions_avoided := emissions_avoided
        required_ng_per_mmbtu_steam := required_ng_per_mmbtu_steam }

/-- `calculate_steam_price` of `utils.py` in its default scalar mode:
only the rounded net steam price is returned. -/
def calculate_steam_price (inp : PriceInputs) : Except PriceError ℚ :=
  (calculate_steam_price_components inp).map PriceComponents.net_steam_price

/-- The exact (pre-rounding) net steam price of section 4.1:
fuel cost minus credit value plus operating cost. -/
def exact_net_steam_price (inp : PriceInputs) : ℚ :=
  inp.ng_price_per_mmbtu * (1 / inp.boiler_efficiency) -
    (inp.bau_emissions_factor - inp.project_emissions_factor) *
      inp.lcfs_price_per_ton + inp.o_and_m_cost

/-- The keyword argument of `calculate_steam_price` varied by
`perform_sensitivity_analysis` (the numeric fields of PriceInputs). -/
inductive ParamName where
  | ng_price_per_mmbtu
  | boiler_efficiency
  | lcfs_price_per_ton
  | bau_emissions_factor
  | project_emissions_factor
  | o_and_m_cost
deriving DecidableEq, Repr

/-- The dictionary update of the varied parameter on a copy of the fixed
parameters (`utils.py` lines 74-77). -/
def setParam (p : PriceInputs) : ParamName → ℚ → PriceInputs
  | .ng_price_per_mmbtu, v => { p with ng_price_per_mmbtu := v }
  | .boiler_efficiency, v => { p with boiler_efficiency := v }
  | .lcfs_price_per_ton, v => { p with lcfs_price_per_ton := v }
  | .bau_emissions_factor, v => { p with bau_emissions_factor := v }
  | .project_emissions_factor, v => { p with project_emissions_factor := v }
  | .o_and_m_cost, v => { p with o_and_m_cost := v }

/-- `perform_sensitivity_analysis` of `utils.py`: for each value of the
range, in order, overwrite the named parameter on a copy of the fixed
parameters, price it, and record the pair.  A pricing failure aborts the
whole sweep, as the uncaught Python exception would. -/
def perform_sensitivity_analysis (param : ParamName) :
    List ℚ → PriceInputs → Except PriceError (List (ℚ × ℚ))
  | [], _ => .ok []
  | v :: rest, fixed_params =>
    match calculate_steam_price (setParam fixed_params param v) with
    | .error e => .error e
    | .ok steam_price =>
      match perform_sensitivity_analysis param rest fixed_params with
      | .error e => .error e
      | .ok results => .ok ((v, steam_price) :: results)

/-- The cash-flow series built by the source loops: year 0 carries the
negated capital investment, years 1..N carry the flat annual flow
(`utils.py` lines 130-141, `lcfs_revenue_sharing.py` lines 163-167 and
205-207). -/
def cfs_series (capital_investment annual_flow : ℚ)
    (project_lifetime : ℕ) : List ℚ :=
  -capital_investment :: List.replicate project_lifetime annual_flow

/-- Running cumulative sums with a carried accumulator, the model of
`np.cumsum` (`utils.py` line 162, `lcfs_revenue_sharing.py` line 217). -/
def cumsum_from (acc : ℚ) : List ℚ → List ℚ
  | [] => []
  | cf :: rest => (acc + cf) :: cumsum_from (acc + cf) rest

/-- `np.cumsum` of a cash-flow list. -/
def cumulative (cfs : List ℚ) : List ℚ :=
  cumsum_from 0 cfs

/-- The payback scan after the first cumulative entry: `prev` is the
cumulative sum at index i-1; on the first entry ≥ 0 the source
interpolates `i - 1 + (-prev) / (cur - prev)`. -/
def payback_loop (prev : ℚ) (i : ℕ) : List ℚ → Option ℚ
  | [] => none
  | cf :: rest =>
    if 0 ≤ cf then some ((i : ℚ) - 1 + (-prev) / (cf - prev))
    else payback_loop cf (i + 1) rest

/-- The payback scan of `utils.py` lines 163-173 over the cumulative
sums: index 0 already ≥ 0 gives payback 0, otherwise the scan
interpolates; `none` when no cumulative sum is ≥ 0. -/
def payback_of_cumulative : List ℚ → Option ℚ
  | [] => none
  | cf :: rest => if 0 ≤ cf then some 0 else payback_loop cf 1 rest

/-- `payback_years` of the source: the scan applied to the cumulative
sums of the cash-flow series. -/
def payback_period (cfs : List ℚ) : Option ℚ :=
  payback_of_cumulative (cumulative cfs)

/-- `steam_price_no_lcfs` of `lcfs_revenue_sharing.py` lines 135-142:
the steam price recomputed with the carbon credit price set to zero. -/
def steam_price_no_lcfs (inp : PriceInputs) : Except PriceError ℚ :=
  calculate_steam_price { inp with lcfs_price_per_ton := 0 }

/-- `price_gap` of `lcfs_revenue_sharing.py` line 148. -/
def price_gap (steam_price_without_credit target_steam_price : ℚ) : ℚ :=
  steam_price_without_credit - target_steam_price

/-- `required_lcfs_value_per_mmbtu` of `lcfs_revenue_sharing.py`
line 149: the price gap clamped at zero. -/
def required_lcfs_value_per_mmbtu
    (steam_price_without_credit target_steam_price : ℚ) : ℚ :=
  max 0 (price_gap steam_price_without_credit target_steam_price)

/-- `required_lcfs_price_per_ton` of `lcfs_revenue_sharing.py` lines
150-153: initialised to 0 and overwritten by the quotient only when the
avoided emissions are strictly positive. -/
def required_lcfs_price_per_ton
    (steam_price_without_credit target_steam_price emissions_avoided : ℚ) : ℚ :=
  if 0 < emissions_avoided then
    required_lcfs_value_per_mmbtu steam_price_without_credit
      target_steam_price / emissions_avoided
  else 0

/-- `annual_lcfs_revenue` of `lcfs_revenue_sharing.py` line 156. -/
def annual_lcfs_revenue
    (steam_price_without_credit target_steam_price annual_steam_usage : ℚ) : ℚ :=
  required_lcfs_value_per_mmbtu steam_price_without_credit
    target_steam_price * annual_steam_usage

/-- `np.linspace(0, 1, 21)` of `lcfs_revenue_sharing.py` line 159: the
21 evenly spaced revenue shares 0, 0.05, ..., 1.00. -/
def revenue_shares_calc : List ℚ :=
  (List.range 21).map fun k : ℕ => (k : ℚ) / 20

/-- The loop-body test of `lcfs_revenue_sharing.py` lines 163-175: the
IRR of the candidate series exists and reaches the target.  The IRR
root-finder `npf.irr` is abstracted as a function returning `none` when
it raises or finds no root. -/
def share_qualifies (irr : List ℚ → Option ℚ)
    (annual_credit_revenue capital_investment : ℚ) (project_lifetime : ℕ)
    (target_irr share : ℚ) : Bool :=
  match irr (cfs_series capital_investment
      (annual_credit_revenue * (1 - share)) project_lifetime) with
  | some v => decide (target_irr ≤ v)
  | none => false

/-- `optimal_share_found` of `lcfs_revenue_sharing.py` lines 161-175:
fold over the sampled shares keeping the first qualifying one, `none`
when no sampled share qualifies. -/
def optimal_share_found (irr : List ℚ → Option ℚ)
    (annual_credit_revenue capital_investment : ℚ) (project_lifetime : ℕ)
    (target_irr : ℚ) : Option ℚ :=
  revenue_shares_calc.foldl
    (fun acc share =>
      match acc with
      | some s => some s
      | none =>
        if share_qualifies irr annual_credit_revenue capital_investment
            project_lifetime target_irr share
        then some share else none)
    none

theorem roundHalfEven_sub_abs_le (q : ℚ) :
    |(roundHalfEven q : ℚ) - q| ≤ 1/2 := by
  have h0 : (⌊q⌋ : ℚ) ≤ q := Int.floor_le q
  have h1 : q < ⌊q⌋ + 1 := Int.lt_floor_add_one q
  unfold roundHalfEven
  split_ifs <;> push_cast <;> rw [abs_le] <;> constructor <;> linarith

theorem roundHalfEven_intCast (k : ℤ) : roundHalfEven (k : ℚ) = k := by
  unfold roundHalfEven
  rw [Int.floor_intCast]
  simp

theorem round2_mul_hundred_den (x : ℚ) : (round2 x * 100).den = 1 := by
  unfold round2
  rw [div_mul_cancel₀ _ (by norm_num : (100 : ℚ) ≠ 0)]
  exact Rat.den_intCast _

theorem round2_sub_abs_le (x : ℚ) : |round2 x - x| ≤ 1/200 := by
  have h := roundHalfEven_sub_abs_le (x * 100)
  unfold round2
  rw [show (roundHalfEven (x * 100) : ℚ) / 100 - x =
        ((roundHalfEven (x * 100) : ℚ) - x * 100) / 100 by ring,
    abs_div]
  rw [abs_of_pos (by norm_num : (0:ℚ) < 100)]
  linarith

theorem round2_eq_self (x : ℚ) (hx : (x * 100).den = 1) : round2 x = x := by
  have hk : ((x * 100).num : ℚ) = x * 100 := by
    conv_rhs => rw [← Rat.num_div_den (x * 100)]
    rw [hx]
    simp
  unfold round2
  rw [← hk, roundHalfEven_intCast, hk]
  field_simp

theorem getD_replicate_of_lt (a d : ℚ) :
    ∀ (n i : ℕ), i < n → (List.replicate n a).getD i d = a
  | _ + 1, 0, _ => rfl
  | n + 1, i + 1, h => by
    simp only [List.replicate, List.getD_cons_succ]
    exact getD_replicate_of_lt a d n i (Nat.lt_of_succ_lt_succ h)

theorem cumsum_from_length (acc : ℚ) :
    ∀ l : List ℚ, (cumsum_from acc l).length = l.length
  | [] => rfl
  | cf :: rest => by
    simp only [cumsum_from, List.length_cons]
    rw [cumsum_from_length (acc + cf) rest]

theorem cumsum_from_getD (d : ℚ) :
    ∀ (l : List ℚ) (acc : ℚ) (k : ℕ), k < l.length →
      (cumsum_from acc l).getD k d = acc + (l.take (k + 1)).sum
  | [], _, k, h => absurd h (by simp)
  | cf :: rest, acc, 0, _ => by simp [cumsum_from]
  | cf :: rest, acc, k + 1, h => by
    simp only [cumsum_from, List.getD_cons_succ, List.take_succ_cons,
      List.sum_cons]
    rw [cumsum_from_getD d rest (acc + cf) k (by simpa using h)]
    ring

theorem cumulative_getD (cfs : List ℚ) (k : ℕ) (h : k < cfs.length) :
    (cumulative cfs).getD k 0 = (cfs.take (k + 1)).sum := by
  rw [cumulative, cumsum_from_getD 0 cfs 0 k h, zero_add]

theorem cumulative_length (cfs : List ℚ) :
    (cumulative cfs).length = cfs.length :=
  cumsum_from_length 0 cfs

theorem payback_loop_none :
    ∀ (l : List ℚ) (prev : ℚ) (i : ℕ), (∀ x ∈ l, x < 0) →
      payback_loop prev i l = none
  | [], _, _, _ => rfl
  | cf :: rest, prev, i, h => by
    rw [payback_loop, if_neg (not_le.mpr (h cf (List.mem_cons_self cf rest)))]
    exact payback_loop_none rest cf (i + 1)
      fun x hx => h x (List.mem_cons_of_mem cf hx)

theorem payback_loop_spec :
    ∀ (l : List ℚ) (prev : ℚ) (i k : ℕ), k < l.length →
      (∀ j, j < k → l.getD j 0 < 0) → 0 ≤ l.getD k 0 →
      payback_loop prev i l = some ((i : ℚ) + (k : ℚ) - 1 +
        (-(prev :: l).getD k 0) / (l.getD k 0 - (prev :: l).getD k 0))
  | [], _, _, k, hk, _, _ => absurd hk (by simp)
  | cf :: rest, prev, i, 0, _, _, hpos => by
    rw [payback_loop, if_pos (by simpa using hpos)]
    simp
  | cf :: rest, prev, i, k + 1, hk, hneg, hpos => by
    rw [payback_loop,
      if_neg (not_le.mpr (by simpa using hneg 0 (Nat.succ_pos k)))]
    rw [payback_loop_spec rest cf (i + 1) k (by simpa using hk)
      (fun j hj => by simpa using hneg (j + 1) (Nat.succ_lt_succ hj))
      (by simpa using hpos)]
    simp only [List.getD_cons_succ]
    congr 1
    push_cast
    ring

theorem payback_period_head_nonneg (c : ℚ) (cfs : List ℚ) (h : 0 ≤ c) :
    payback_period (c :: cfs) = some 0 := by
  rw [payback_period, cumulative]
  simp only [cumsum_from, zero_add]
  rw [payback_of_cumulative, if_pos h]

theorem cumulative_cons (c0 : ℚ) (rest : List ℚ) :
    cumulative (c0 :: rest) = c0 :: cumsum_from c0 rest := by
  rw [cumulative]
  simp only [cumsum_from, zero_add]

theorem payback_period_interp (cfs : List ℚ) (i : ℕ)
    (hi : i < cfs.length) (h0 : 0 < i)
    (hneg : ∀ j, j < i → (cfs.take (j + 1)).sum < 0)
    (hpos : 0 ≤ (cfs.take (i + 1)).sum) :
    payback_period cfs = some ((i : ℚ) - 1 +
      (-(cfs.take i).sum) / ((cfs.take (i + 1)).sum - (cfs.take i).sum)) := by
  match cfs, i, h0 with
  | c0 :: rest, k + 1, _ =>
    have hklen : k < rest.length := by simpa using hi
    have hc0 : c0 < 0 := by simpa using hneg 0 (Nat.succ_pos k)
    have hA : (c0 :: cumsum_from c0 rest).getD k 0 =
        ((c0 :: rest).take (k + 1)).sum := by
      rw [← cumulative_cons, cumulative_getD]
      simpa using Nat.lt_succ_of_lt hklen
    have hB : (cumsum_from c0 rest).getD k 0 =
        ((c0 :: rest).take (k + 2)).sum := by
      rw [cumsum_from_getD 0 rest c0 k hklen]
      simp
    rw [payback_period, cumulative_cons, payback_of_cumulative,
      if_neg (not_le.mpr hc0)]
    rw [payback_loop_spec (cumsum_from c0 rest) c0 1 k
      (by rw [cumsum_from_length]; exact hklen)
      (fun j hj => by
        rw [cumsum_from_getD 0 rest c0 j (lt_trans hj hklen)]
        simpa using hneg (j + 1) (Nat.succ_lt_succ hj))
      (by rw [cumsum_from_getD 0 rest c0 k hklen]; simpa using hpos)]
    rw [hA, hB]
    congr 1
    push_cast
    ring

theorem payback_period_none (cfs : List ℚ)
    (h : ∀ i, i < cfs.length → (cfs.take (i + 1)).sum < 0) :
    payback_period cfs = none := by
  match cfs with
  | [] => rfl
  | c0 :: rest =>
    have hc0 : c0 < 0 := by simpa using h 0 (by simp)
    rw [payback_period, cumulative_cons, payback_of_cumulative,
      if_neg (not_le.mpr hc0)]
    apply payback_loop_none
    intro x hx
    obtain ⟨⟨j, hjlen⟩, rfl⟩ := List.mem_iff_get.mp hx
    have hjr : j < rest.length := by
      rw [← cumsum_from_length c0]; exact hjlen
    have hval : (cumsum_from c0 rest).get ⟨j, hjlen⟩ =
        (cumsum_from c0 rest).getD j 0 := by
      rw [List.getD_eq_getElem _ _ hjlen, List.get_eq_getElem]
    rw [hval, cumsum_from_getD 0 rest c0 j hjr]
    simpa using h (j + 1) (by simpa using Nat.succ_lt_succ hjr)

theorem calculate_steam_price_components_ok (inp : PriceInputs)
    (h : inp.boiler_efficiency ≠ 0) :
    calculate_steam_price_components inp =
      .ok
        { net_steam_price := round2 (exact_net_steam_price inp)
          fuel_cost :=
            round2 (inp.ng_price_per_mmbtu * (1 / inp.boiler_efficiency))
          lcfs_credit :=
            round2 ((inp.bau_emissions_factor - inp.project_emissions_factor) *
              inp.lcfs_price_per_ton)
          emissions_avoided :=
            inp.bau_emissions_factor - inp.project_emissions_factor
          required_ng_per_mmbtu_steam := 1 / inp.boiler_efficiency } := by
  unfold calculate_steam_price_components exact_net_steam_price
  rw [if_neg h]

theorem steam_price_no_lcfs_ok (inp : PriceInputs)
    (h : inp.boiler_efficiency ≠ 0) :
    steam_price_no_lcfs inp =
      .ok (round2 (inp.ng_price_per_mmbtu * (1 / inp.boiler_efficiency) +
        inp.o_and_m_cost)) := by
  have hE : exact_net_steam_price { inp with lcfs_price_per_ton := 0 } =
      inp.ng_price_per_mmbtu * (1 / inp.boiler_efficiency) +
        inp.o_and_m_cost := by
    simp [exact_net_steam_price]
  rw [steam_price_no_lcfs, calculate_steam_price,
    calculate_steam_price_components_ok { inp with lcfs_price_per_ton := 0 } h]
  simp [Except.map, hE]

theorem foldl_keep_some (p : ℚ → Bool) (s : ℚ) :
    ∀ l : List ℚ,
      l.foldl
        (fun acc share =>
          match acc with
          | some t => some t
          | none => if p share then some share else none)
        (some s) = some s
  | [] => rfl
  | _ :: xs => foldl_keep_some p s xs

theorem foldl_find_first (p : ℚ → Bool) :
    ∀ l : List ℚ,
      l.foldl
        (fun acc share =>
          match acc with
          | some t => some t
          | none => if p share then some share else none)
        none = l.find? p
  | [] => rfl
  | x :: xs => by
    cases hp : p x with
    | false =>
      rw [List.find?_cons_of_neg _ (by simp [hp])]
      show xs.foldl _ (if p x then some x else none) = xs.find? p
      rw [if_neg (by simp [hp])]
      exact foldl_find_first p xs
    | true =>
      rw [List.find?_cons_of_pos _ (by simp [hp])]
      show xs.foldl _ (if p x then some x else none) = some x
      rw [if_pos (by simp [hp])]
      exact foldl_keep_some p x xs

theorem find?_first_of_sorted (p : ℚ → Bool) :
    ∀ l : List ℚ, List.Pairwise (· < ·) l → ∀ a : ℚ, l.find? p = some a →
      ∀ b ∈ l, b < a → p b = false
  | [], _, a, h => by cases h
  | x :: xs, hpw, a, hfind => by
    obtain ⟨hx, hxs⟩ := List.pairwise_cons.mp hpw
    intro b hb hba
    cases hp : p x with
    | true =>
      rw [List.find?_cons_of_pos _ (by simp [hp])] at hfind
      cases hfind
      rcases List.mem_cons.mp hb with rfl | hbxs
      · exact absurd hba (lt_irrefl b)
      · exact absurd hba (not_lt.mpr (le_of_lt (hx b hbxs)))
    | false =>
      rw [List.find?_cons_of_neg _ (by simp [hp])] at hfind
      rcases List.mem_cons.mp hb with rfl | hbxs
      · exact hp
      · exact find?_first_of_sorted p xs hxs a hfind b hbxs hba

theorem revenue_shares_calc_sorted :
    List.Pairwise (· < ·) revenue_shares_calc := by
  unfold revenue_shares_calc
  refine List.Pairwise.map _ ?_ (List.pairwise_lt_range 21)
  intro a b hab
  have h : (a : ℚ) < b := by exact_mod_cast hab
  linarith

theorem revenue_shares_calc_getD (k : ℕ) (h : k < 21) :
    revenue_shares_calc.getD k 0 = (k : ℚ) / 20 := by
  unfold revenue_shares_calc
  rw [List.getD_eq_getElem _ _ (by simpa using h)]
  simp

theorem share_qualifies_iff (irr : List ℚ → Option ℚ)
    (annual_credit_revenue capital_investment : ℚ) (project_lifetime : ℕ)
    (target_irr share : ℚ) :
    share_qualifies irr annual_credit_revenue capital_investment
        project_lifetime target_irr share = true ↔
      ∃ v, irr (cfs_series capital_investment
          (annual_credit_revenue * (1 - share)) project_lifetime) = some v ∧
        target_irr ≤ v := by
  unfold share_qualifies
  cases h : irr (cfs_series capital_investment
      (annual_credit_revenue * (1 - share)) project_lifetime) with
  | none => simp
  | some v => simp

theorem optimal_share_found_eq_find (irr : List ℚ → Option ℚ)
    (annual_credit_revenue capital_investment : ℚ) (project_lifetime : ℕ)
    (target_irr : ℚ) :
    optimal_share_found irr annual_credit_revenue capital_investment
        project_lifetime target_irr =
      revenue_shares_calc.find? (share_qualifies irr annual_credit_revenue
        capital_investment project_lifetime target_irr) :=
  foldl_find_first _ revenue_shares_calc

/-- C1 counterexample: at ng_price = 1.001, boiler_efficiency = 1 and all
other inputs zero, the exact section 4.1 net price and fuel cost are
1.001, yet the code returns 1.00 for both because it rounds to two
decimals before returning. -/
theorem calculate_steam_price_not_exact :
    calculate_steam_price ⟨1001/1000, 1, 0, 0, 0, 0⟩ = .ok 1 ∧
    calculate_steam_price_components ⟨1001/1000, 1, 0, 0, 0, 0⟩ =
      .ok ⟨1, 1, 0, 0, 1⟩ ∧
    exact_net_steam_price ⟨1001/1000, 1, 0, 0, 0, 0⟩ = 1001/1000 ∧
    (1 : ℚ) ≠ 1001/1000 := by
  refine ⟨?_, ?_, by norm_num [exact_net_steam_price], by norm_num⟩
  · rw [show calculate_steam_price ⟨1001/1000, 1, 0, 0, 0, 0⟩ = _ from
      congrArg (Except.map _)
        (calculate_steam_price_components_ok _ (by norm_num))]
    norm_num [exact_net_steam_price, round2, roundHalfEven, Except.map]
  · rw [calculate_steam_price_components_ok _ (by norm_num)]
    norm_num [exact_net_steam_price, round2, roundHalfEven]

/-- C1 amended: for every input with nonzero boiler efficiency the code
returns the section 4.1 net price rounded to two decimals, and at
boiler_efficiency = 1 the returned fuel cost is ng_price rounded to two
decimals, hence exactly ng_price whenever ng_price is a two-decimal
quantity. -/
theorem calculate_steam_price_formula_rounded (inp : PriceInputs)
    (h : inp.boiler_efficiency ≠ 0) :
    calculate_steam_price inp = .ok (round2 (exact_net_steam_price inp)) ∧
    (inp.boiler_efficiency = 1 →
      ∃ c : PriceComponents,
        calculate_steam_price_components inp = .ok c ∧
        c.fuel_cost = round2 inp.ng_price_per_mmbtu ∧
        ((inp.ng_price_per_mmbtu * 100).den = 1 →
          c.fuel_cost = inp.ng_price_per_mmbtu)) := by
  constructor
  · unfold calculate_steam_price
    rw [calculate_steam_price_components_ok inp h]
    rfl
  · intro h1
    refine ⟨_, calculate_steam_price_components_ok inp h, ?_, ?_⟩
    · rw [h1]
      norm_num
    · intro hden
      rw [h1]
      norm_num [round2_eq_self _ hden]

/-- Witness for the amended C1 at ng_price = 4.52, boiler_efficiency = 1. -/
theorem calculate_steam_price_formula_rounded_witness :
    calculate_steam_price ⟨452/100, 1, 0, 0, 0, 0⟩ =
      .ok (round2 (exact_net_steam_price ⟨452/100, 1, 0, 0, 0, 0⟩)) ∧
    ((1 : ℚ) = 1 →
      ∃ c : PriceComponents,
        calculate_steam_price_components ⟨452/100, 1, 0, 0, 0, 0⟩ = .ok c ∧
        c.fuel_cost = round2 ((452 : ℚ)/100) ∧
        (((452 : ℚ)/100 * 100).den = 1 → c.fuel_cost = (452 : ℚ)/100)) :=
  calculate_steam_price_formula_rounded ⟨452/100, 1, 0, 0, 0, 0⟩ (by norm_num)

/-- C9: calculate_steam_price returns the net steam price rounded to two
decimal places, and in component mode also rounds fuel_cost and the
LCFS credit value, while emissions_avoided and the required gas per unit
of steam are returned unrounded. -/
theorem calculate_steam_price_rounds_monetary_fields (inp : PriceInputs)
    (h : inp.boiler_efficiency ≠ 0) :
    ∃ c : PriceComponents,
      calculate_steam_price_components inp = .ok c ∧
      calculate_steam_price inp = .ok c.net_steam_price ∧
      c.net_steam_price = round2 (exact_net_steam_price inp) ∧
      |c.net_steam_price - exact_net_steam_price inp| ≤ 1/200 ∧
      (c.net_steam_price * 100).den = 1 ∧
      c.fuel_cost = round2 (inp.ng_price_per_mmbtu * (1 / inp.boiler_efficiency)) ∧
      (c.fuel_cost * 100).den = 1 ∧
      c.lcfs_credit = round2 ((inp.bau_emissions_factor -
        inp.project_emissions_factor) * inp.lcfs_price_per_ton) ∧
      (c.lcfs_credit * 100).den = 1 ∧
      c.emissions_avoided = inp.bau_emissions_factor - inp.project_emissions_factor ∧
      c.required_ng_per_mmbtu_steam = 1 / inp.boiler_efficiency := by
  refine ⟨_, calculate_steam_price_components_ok inp h, ?_, rfl,
    round2_sub_abs_le _, round2_mul_hundred_den _, rfl,
    round2_mul_hundred_den _, rfl, round2_mul_hundred_den _, rfl, rfl⟩
  unfold calculate_steam_price
  rw [calculate_steam_price_components_ok inp h]
  rfl

/-- Witness for C9 at the default parameter values of the source. -/
theorem calculate_steam_price_rounds_monetary_fields_witness :
    ∃ c : PriceComponents,
      calculate_steam_price_components ⟨4, 85/100, 100, 53/1000, 53/10000, 1/2⟩ = .ok c ∧
      calculate_steam_price ⟨4, 85/100, 100, 53/1000, 53/10000, 1/2⟩ = .ok c.net_steam_price ∧
      c.net_steam_price = round2 (exact_net_steam_price ⟨4, 85/100, 100, 53/1000, 53/10000, 1/2⟩) ∧
      |c.net_steam_price - exact_net_steam_price ⟨4, 85/100, 100, 53/1000, 53/10000, 1/2⟩| ≤ 1/200 ∧
      (c.net_steam_price * 100).den = 1 ∧
      c.fuel_cost = round2 ((4 : ℚ) * (1 / (85/100))) ∧
      (c.fuel_cost * 100).den = 1 ∧
      c.lcfs_credit = round2 (((53:ℚ)/1000 - 53/10000) * 100) ∧
      (c.lcfs_credit * 100).den = 1 ∧
      c.emissions_avoided = (53:ℚ)/1000 - 53/10000 ∧
      c.required_ng_per_mmbtu_steam = 1 / ((85:ℚ)/100) :=
  calculate_steam_price_rounds_monetary_fields
    ⟨4, 85/100, 100, 53/1000, 53/10000, 1/2⟩ (by norm_num)

/-- C8: the pricing core fails with the DivisionByZero error kind exactly
when boiler_efficiency is zero, and succeeds on every other input; the
check is part of calculate_steam_price itself. -/
theorem calculate_steam_price_division_by_zero (inp : PriceInputs) :
    (calculate_steam_price inp = .error .divisionByZero ↔
      inp.boiler_efficiency = 0) ∧
    (inp.boiler_efficiency ≠ 0 → ∃ p, calculate_steam_price inp = .ok p) := by
  constructor
  · constructor
    · intro hE
      by_contra h
      rw [show calculate_steam_price inp = _ from congrArg (Except.map _)
        (calculate_steam_price_components_ok inp h)] at hE
      exact Except.noConfusion hE
    · intro h
      unfold calculate_steam_price calculate_steam_price_components
      rw [if_pos h]
      rfl
  · intro h
    exact ⟨_, by
      unfold calculate_steam_price
      rw [calculate_steam_price_components_ok inp h]
      rfl⟩

/-- Witness for C8: a zero efficiency input fails with DivisionByZero and
a nonzero one succeeds. -/
theorem calculate_steam_price_division_by_zero_witness :
    calculate_steam_price ⟨4, 0, 100, 53/1000, 53/10000, 1/2⟩ =
      .error .divisionByZero ∧
    ∃ p, calculate_steam_price ⟨4, 1, 100, 53/1000, 53/10000, 1/2⟩ = .ok p :=
  ⟨(calculate_steam_price_division_by_zero _).1.mpr rfl,
    (calculate_steam_price_division_by_zero
      ⟨4, 1, 100, 53/1000, 53/10000, 1/2⟩).2 (by norm_num)⟩

/-- C6: the constructed cash-flow series has exactly N+1 entries, entry 0
equals the negated initial outlay, and entries 1 through N all equal the
periodic flow. -/
theorem cfs_series_spec (C F : ℚ) (N : ℕ) :
    (cfs_series C F N).length = N + 1 ∧
    (cfs_series C F N).getD 0 0 = -C ∧
    ∀ i : ℕ, 1 ≤ i → i ≤ N → (cfs_series C F N).getD i 0 = F := by
  refine ⟨by simp [cfs_series], rfl, ?_⟩
  intro i h1 h2
  match i, h1 with
  | i + 1, _ =>
    simp only [cfs_series, List.getD_cons_succ]
    exact getD_replicate_of_lt F 0 N i (Nat.lt_of_succ_le h2)

/-- Witness for C6 on a 3-period series. -/
theorem cfs_series_spec_witness :
    (cfs_series 100 30 2).getD 1 0 = 30 ∧ (cfs_series 100 30 2).getD 2 0 = 30 :=
  ⟨(cfs_series_spec 100 30 2).2.2 1 (by norm_num) (by norm_num),
   (cfs_series_spec 100 30 2).2.2 2 (by norm_num) (by norm_num)⟩

/-- C7: a successful sensitivity sweep returns one pair per input value,
in order; the i-th pair carries value i as its first component and the
steam price of the baseline with the named field overwritten by that
value as its second component. -/
theorem perform_sensitivity_analysis_spec (param : ParamName)
    (range : List ℚ) (fixed_params : PriceInputs) (res : List (ℚ × ℚ))
    (h : perform_sensitivity_analysis param range fixed_params = .ok res) :
    res.length = range.length ∧
    ∀ i : ℕ, ∀ (h1 : i < res.length) (h2 : i < range.length),
      (res.get ⟨i, h1⟩).1 = range.get ⟨i, h2⟩ ∧
      calculate_steam_price (setParam fixed_params param (range.get ⟨i, h2⟩)) =
        .ok (res.get ⟨i, h1⟩).2 := by
  induction range generalizing res with
  | nil =>
    rw [perform_sensitivity_analysis] at h
    cases h
    exact ⟨rfl, fun i h1 _ => absurd h1 (Nat.not_lt_zero i)⟩
  | cons v rest ih =>
    rw [perform_sensitivity_analysis] at h
    cases hsp : calculate_steam_price (setParam fixed_params param v) with
    | error e => rw [hsp] at h; cases h
    | ok steam_price =>
      rw [hsp] at h
      cases htl : perform_sensitivity_analysis param rest fixed_params with
      | error e => rw [htl] at h; cases h
      | ok results =>
        rw [htl] at h
        cases h
        obtain ⟨hlen, hget⟩ := ih results htl
        refine ⟨by simp [hlen], ?_⟩
        intro i h1 h2
        match i with
        | 0 => exact ⟨rfl, hsp⟩
        | i + 1 =>
          exact hget i (Nat.lt_of_succ_lt_succ h1) (Nat.lt_of_succ_lt_succ h2)

/-- Witness for C7: a two-point sweep of ng_price at unit efficiency. -/
theorem perform_sensitivity_analysis_spec_witness :
    [((1:ℚ), (1:ℚ)), (2, 2)].length = [(1:ℚ), 2].length ∧
    ∀ i : ℕ, ∀ (h1 : i < [((1:ℚ), (1:ℚ)), (2, 2)].length)
      (h2 : i < [(1:ℚ), 2].length),
      ([((1:ℚ), (1:ℚ)), (2, 2)].get ⟨i, h1⟩).1 = [(1:ℚ), 2].get ⟨i, h2⟩ ∧
      calculate_steam_price
          (setParam ⟨4, 1, 0, 0, 0, 0⟩ .ng_price_per_mmbtu
            ([(1:ℚ), 2].get ⟨i, h2⟩)) =
        .ok (([((1:ℚ), (1:ℚ)), (2, 2)].get ⟨i, h1⟩).2) :=
  perform_sensitivity_analysis_spec .ng_price_per_mmbtu [1, 2]
    ⟨4, 1, 0, 0, 0, 0⟩ [(1, 1), (2, 2)] (by
      norm_num [perform_sensitivity_analysis, setParam, calculate_steam_price,
        calculate_steam_price_components, round2, roundHalfEven, Except.map])

/-- C4: payback is 0 when the flow at period 0 is already ≥ 0; otherwise
it is (i-1) + (-prev)/(cur-prev) at the first period i whose cumulative
sum cur is ≥ 0, with prev the cumulative sum at period i-1; it is
undefined when the cumulative sums never reach ≥ 0; and on
[-100, 50, 50, 50] it equals exactly 2. -/
theorem payback_period_spec :
    (∀ (c : ℚ) (cfs : List ℚ), 0 ≤ c → payback_period (c :: cfs) = some 0) ∧
    (∀ (cfs : List ℚ) (i : ℕ), i < cfs.length → 0 < i →
      (∀ j, j < i → (cfs.take (j + 1)).sum < 0) → 0 ≤ (cfs.take (i + 1)).sum →
      payback_period cfs = some ((i : ℚ) - 1 +
        (-(cfs.take i).sum) / ((cfs.take (i + 1)).sum - (cfs.take i).sum))) ∧
    (∀ cfs : List ℚ, (∀ i, i < cfs.length → (cfs.take (i + 1)).sum < 0) →
      payback_period cfs = none) ∧
    payback_period [-100, 50, 50, 50] = some 2 := by
  refine ⟨payback_period_head_nonneg, payback_period_interp,
    payback_period_none, ?_⟩
  norm_num [payback_period, cumulative, cumsum_from, payback_of_cumulative,
    payback_loop]

/-- Witness for C4: a nonnegative initial flow pays back immediately. -/
theorem payback_period_spec_witness : payback_period [(5 : ℚ)] = some 0 :=
  payback_period_spec.1 5 [] (by norm_num)

/-- C10: when the interpolation branch is reached (the first cumulative
sum ≥ 0 is at an index i > 0), the previous cumulative sum is strictly
negative, so the interpolation divisor cur - prev is strictly positive. -/
theorem payback_interpolation_divisor_pos (cfs : List ℚ) (i : ℕ)
    (hi : i < cfs.length) (h0 : 0 < i)
    (hneg : ∀ j, j < i → (cfs.take (j + 1)).sum < 0)
    (hpos : 0 ≤ (cfs.take (i + 1)).sum) :
    (cfs.take i).sum < 0 ∧
    0 < (cfs.take (i + 1)).sum - (cfs.take i).sum ∧
    payback_period cfs = some ((i : ℚ) - 1 +
      (-(cfs.take i).sum) / ((cfs.take (i + 1)).sum - (cfs.take i).sum)) := by
  have hprev : (cfs.take i).sum < 0 := by
    have h := hneg (i - 1) (by omega)
    rwa [Nat.sub_add_cancel (Nat.one_le_iff_ne_zero.mpr
      (Nat.pos_iff_ne_zero.mp h0))] at h
  exact ⟨hprev, by linarith, payback_period_interp cfs i hi h0 hneg hpos⟩

/-- Witness for C10 on the series [-10, 4, 7], whose cumulative sums are
[-10, -6, 1]: the divisor at the interpolation index 2 is 7 > 0. -/
theorem payback_interpolation_divisor_pos_witness :
    (([(-10 : ℚ), 4, 7].take 2).sum < 0) ∧
    (0 < ([(-10 : ℚ), 4, 7].take 3).sum - ([(-10 : ℚ), 4, 7].take 2).sum) ∧
    payback_period [(-10 : ℚ), 4, 7] = some ((2 : ℚ) - 1 +
      (-([(-10 : ℚ), 4, 7].take 2).sum) /
        (([(-10 : ℚ), 4, 7].take 3).sum - ([(-10 : ℚ), 4, 7].take 2).sum)) :=
  payback_interpolation_divisor_pos [(-10 : ℚ), 4, 7] 2 (by norm_num)
    (by norm_num)
    (fun j hj => by interval_cases j <;> norm_num)
    (by norm_num)

/-- C5: the required-credit-price solve computes the clamped price gap
max(0, price_without_credit - target), divides it by the avoided
emissions when those are positive, multiplies it by the annual volume
for the annual credit revenue, and on price_without_credit = 5,
target = 4.5, emissions_avoided = 0.05 yields gap 0.5 and required
price 10. -/
theorem required_credit_price_spec :
    (∀ p target ea : ℚ, 0 < ea →
      required_lcfs_price_per_ton p target ea = max 0 (p - target) / ea) ∧
    (∀ p target vol : ℚ,
      annual_lcfs_revenue p target vol = max 0 (p - target) * vol) ∧
    (∀ inp : PriceInputs, inp.boiler_efficiency ≠ 0 →
      steam_price_no_lcfs inp = .ok (round2 (inp.ng_price_per_mmbtu *
        (1 / inp.boiler_efficiency) + inp.o_and_m_cost))) ∧
    (steam_price_no_lcfs ⟨9/2, 1, 123, 53/1000, 3/1000, 1/2⟩ = .ok 5 ∧
      required_lcfs_value_per_mmbtu 5 (9/2) = 1/2 ∧
      required_lcfs_price_per_ton 5 (9/2) (1/20) = 10 ∧
      annual_lcfs_revenue 5 (9/2) 100000 = 50000) := by
  have hval : required_lcfs_value_per_mmbtu 5 (9/2) = 1/2 := by
    rw [required_lcfs_value_per_mmbtu, price_gap,
      max_eq_right (by norm_num : (0:ℚ) ≤ 5 - 9/2)]
    norm_num
  refine ⟨?_, ?_, steam_price_no_lcfs_ok, ?_, hval, ?_, ?_⟩
  · intro p target ea h
    rw [required_lcfs_price_per_ton, if_pos h,
      required_lcfs_value_per_mmbtu, price_gap]
  · intro p target vol
    rw [annual_lcfs_revenue, required_lcfs_value_per_mmbtu, price_gap]
  · rw [steam_price_no_lcfs_ok ⟨9/2, 1, 123, 53/1000, 3/1000, 1/2⟩
      (by norm_num)]
    norm_num [round2, roundHalfEven]
  · rw [required_lcfs_price_per_ton, if_pos (by norm_num : (0:ℚ) < 1/20),
      hval]
    norm_num
  · rw [annual_lcfs_revenue, hval]
    norm_num

/-- Witness for C5: the positive-emissions hypothesis discharged at the
0.05 ton/MMBtu instance, and the no-credit price at unit efficiency. -/
theorem required_credit_price_spec_witness :
    required_lcfs_price_per_ton 5 (9/2) (1/20) = max 0 ((5:ℚ) - 9/2) / (1/20) ∧
    steam_price_no_lcfs ⟨4, 1, 100, 53/1000, 53/10000, 1/2⟩ =
      .ok (round2 ((4:ℚ) * (1 / 1) + 1/2)) :=
  ⟨required_credit_price_spec.1 5 (9/2) (1/20) (by norm_num),
   required_credit_price_spec.2.2.1 ⟨4, 1, 100, 53/1000, 53/10000, 1/2⟩
     (by norm_num)⟩

/-- C3 counterexample: at avoided emissions -0.01 ≤ 0 the solve reports
the plain number 0 — the very value it also reports at a feasible input
whose price gap is zero — so the outcome is silently zero, not a
distinct undefined outcome. -/
theorem required_lcfs_price_silent_zero_counterexample :
    required_lcfs_price_per_ton 5 (9/2) (-(1/100)) = 0 ∧
    (-(1/100) : ℚ) ≤ 0 ∧
    required_lcfs_price_per_ton (9/2) 5 (1/100) = 0 ∧
    (0 : ℚ) < 1/100 := by
  refine ⟨?_, by norm_num, ?_, by norm_num⟩
  · rw [required_lcfs_price_per_ton, if_neg (by norm_num)]
  · rw [required_lcfs_price_per_ton, if_pos (by norm_num : (0:ℚ) < 1/100),
      required_lcfs_value_per_mmbtu, price_gap,
      max_eq_left (by norm_num : (9:ℚ)/2 - 5 ≤ 0)]
    norm_num

/-- C3 amended: whenever emissions_avoided ≤ 0, the required carbon price
is reported as the plain initialised value 0, not a distinct undefined
outcome. -/
theorem required_lcfs_price_zero_of_nonpos_emissions
    (p target ea : ℚ) (h : ea ≤ 0) :
    required_lcfs_price_per_ton p target ea = 0 := by
  rw [required_lcfs_price_per_ton, if_neg (not_lt.mpr h)]

/-- Witness for the amended C3 at exactly zero avoided emissions. -/
theorem required_lcfs_price_zero_of_nonpos_emissions_witness :
    required_lcfs_price_per_ton 5 (9/2) 0 = 0 :=
  required_lcfs_price_zero_of_nonpos_emissions 5 (9/2) 0 le_rfl

/-- C2: the search samples exactly the 21 evenly spaced shares k/20 for
k = 0..20; a returned share is a sampled share whose IRR on the series
[-capital, revenue*(1-share) repeated lifetime times] exists and reaches
the target while every smaller sampled share fails that test; and the
result is none exactly when no sampled share qualifies. -/
theorem optimal_share_search_spec :
    (revenue_shares_calc.length = 21 ∧
      ∀ k : ℕ, k < 21 → revenue_shares_calc.getD k 0 = (k : ℚ) / 20) ∧
    ∀ (irr : List ℚ → Option ℚ) (annual_credit_revenue capital_investment
      target_irr : ℚ) (project_lifetime : ℕ),
      (∀ s, optimal_share_found irr annual_credit_revenue capital_investment
          project_lifetime target_irr = some s →
        s ∈ revenue_shares_calc ∧
        (∃ v, irr (cfs_series capital_investment
            (annual_credit_revenue * (1 - s)) project_lifetime) = some v ∧
          target_irr ≤ v) ∧
        ∀ t ∈ revenue_shares_calc, t < s →
          ¬ ∃ v, irr (cfs_series capital_investment
              (annual_credit_revenue * (1 - t)) project_lifetime) = some v ∧
            target_irr ≤ v) ∧
      (optimal_share_found irr annual_credit_revenue capital_investment
          project_lifetime target_irr = none ↔
        ∀ s ∈ revenue_shares_calc,
          ¬ ∃ v, irr (cfs_series capital_investment
              (annual_credit_revenue * (1 - s)) project_lifetime) = some v ∧
            target_irr ≤ v) := by
  refine ⟨⟨by simp [revenue_shares_calc], revenue_shares_calc_getD⟩, ?_⟩
  intro irr annual_credit_revenue capital_investment target_irr
    project_lifetime
  constructor
  · intro s hs
    rw [optimal_share_found_eq_find] at hs
    refine ⟨List.mem_of_find?_eq_some hs,
      (share_qualifies_iff irr annual_credit_revenue capital_investment
        project_lifetime target_irr s).mp (List.find?_some hs), ?_⟩
    intro t ht hts hex
    have hfalse := find?_first_of_sorted _ revenue_shares_calc
      revenue_shares_calc_sorted s hs t ht hts
    have htrue := (share_qualifies_iff irr annual_credit_revenue
      capital_investment project_lifetime target_irr t).mpr hex
    rw [hfalse] at htrue
    exact Bool.noConfusion htrue
  · rw [optimal_share_found_eq_find, List.find?_eq_none]
    constructor
    · intro h s hsmem hex
      exact h s hsmem ((share_qualifies_iff irr annual_credit_revenue
        capital_investment project_lifetime target_irr s).mpr hex)
    · intro h s hsmem hq
      exact h s hsmem ((share_qualifies_iff irr annual_credit_revenue
        capital_investment project_lifetime target_irr s).mp hq)

/-- Witness for C2: the sampled point 3/20, and an IRR oracle that always
fails, for which the search reports the distinct none outcome. -/
theorem optimal_share_search_spec_witness :
    revenue_shares_calc.getD 3 0 = (3 : ℚ) / 20 ∧
    optimal_share_found (fun _ => none) 1 1 1 0 = none :=
  ⟨optimal_share_search_spec.1.2 3 (by norm_num),
   ((optimal_share_search_spec.2 (fun _ => none) 1 1 0 1).2).mpr
     (fun s _ hex => by
       obtain ⟨v, hv, _⟩ := hex
       exact Option.noConfusion hv)⟩

end ClimateHack
